import Mathlib

/-!
Verification of the Jalali (Persian) calendar conversion and the odd/even
week-parity engine of the zojfard schedule bot.

The embedded code comes from:
* `src/utils/persian.ts` — `isValidPersianDate`, `parsePersianDate`,
  `jalaliToGregorian`, `getStartOfWeekPersian`;
* `src/handlers/commands.ts` — the private `getStartOfWeekPersian` and
  `calculateWeekStatusForDate` of `CommandHandler`;
* `src/handlers/messages.ts` — the simplified `calculateWeekStatusForDate`
  of `MessageHandler`;
* `src/config/constants.ts` — the reference anchor constants.

JavaScript `Date` values are embedded as integer epoch milliseconds
(UTC has no offset jumps, so calendar-day arithmetic on UTC dates is exact
millisecond arithmetic).  `Math.floor(a / b)` for a positive integer divisor
is mathematical floor division (`Int.fdiv`), and the JavaScript `%` operator
is the truncating remainder (`Int.tmod`).
-/

namespace Zojfard

/-- JavaScript `Math.floor(a / b)` for integers with a positive divisor:
floor division. -/
def jsFloorDiv (a b : Int) : Int := Int.fdiv a b

/-- The JavaScript `%` operator on integers: truncating remainder, taking the
sign of the dividend. -/
def jsMod (a b : Int) : Int := Int.tmod a b

/-- `MS_PER_DAY` from `src/config/constants.ts`. -/
def MS_PER_DAY : Int := 24 * 60 * 60 * 1000

/-- `REFERENCE_PERSIAN_YEAR` from `src/config/constants.ts`. -/
def REFERENCE_PERSIAN_YEAR : Int := 1403

/-- `REFERENCE_PERSIAN_MONTH` from `src/config/constants.ts`. -/
def REFERENCE_PERSIAN_MONTH : Int := 11

/-- `REFERENCE_PERSIAN_DAY` from `src/config/constants.ts`. -/
def REFERENCE_PERSIAN_DAY : Int := 20

/-- `REFERENCE_STATUS` from `src/config/constants.ts`: the anchor week
1403/11/20 is an odd ("فرد") week. -/
def REFERENCE_STATUS : String := "فرد"

/-- `isValidPersianDate` from `src/utils/persian.ts` (the source first rejects
non-integer inputs via `Number.isInteger`; the embedding is stated over
integers, on which that test always passes). -/
def isValidPersianDate (year month day : Int) : Bool :=
  if year < 1300 ∨ year > 1500 ∨ month < 1 ∨ month > 12 ∨ day < 1 then false
  else if month ≤ 6 ∧ day > 31 then false
  else if 7 ≤ month ∧ month ≤ 11 ∧ day > 30 then false
  else if month = 12 then
    if day > (if jsMod year 33 ∈ ([1, 5, 9, 13, 17, 22, 26, 30] : List Int)
              then 30 else 29)
    then false else true
  else true

/-- The month-table walk at the end of `jalaliToGregorian`:
`for (gm = 0; gm < 13 && gd > sal_a[gm]; gm++) gd -= sal_a[gm];`. -/
def monthLoop : List Int → Int → Int → Int × Int
  | [], gm, gd => (gm, gd)
  | a :: rest, gm, gd => if gd > a then monthLoop rest (gm + 1) (gd - a) else (gm, gd)

/-- The arithmetic body of `jalaliToGregorian` from `src/utils/persian.ts`,
for inputs that passed the `isNaN` guard. -/
def jalaliToGregorianCore (jy jm jd : Int) : Int × Int × Int :=
  let gy0 : Int := if jy ≤ 979 then 621 else 1600
  let jy2 : Int := jy - (if jy ≤ 979 then 0 else 979)
  let days0 : Int :=
    365 * jy2 + jsFloorDiv jy2 33 * 8 + jsFloorDiv (jsMod jy2 33 + 3) 4 + 78 + jd +
      (if jm < 7 then (jm - 1) * 31 else (jm - 7) * 30 + 186)
  let gy1 : Int := gy0 + 400 * jsFloorDiv days0 146097
  let days1 : Int := jsMod days0 146097
  let cent : Int × Int :=
    if days1 > 36524 then
      let d := days1 - 1
      let gyC := gy1 + 100 * jsFloorDiv d 36524
      let d2 := jsMod d 36524
      (gyC, if d2 ≥ 365 then d2 + 1 else d2)
    else (gy1, days1)
  let gy2 : Int := cent.1 + 4 * jsFloorDiv cent.2 1461
  let days3 : Int := jsMod cent.2 1461
  let gy : Int := gy2 + jsFloorDiv (days3 - 1) 365
  let days4 : Int := jsMod (days3 - 1) 365
  let gd : Int := days4 + 1
  let sal_a : List Int :=
    [0, 31,
     if (jsMod gy 4 = 0 ∧ jsMod gy 100 ≠ 0) ∨ jsMod gy 400 = 0 then 29 else 28,
     31, 30, 31, 30, 31, 31, 30, 31, 30, 31]
  let r := monthLoop sal_a 0 gd
  (gy, r.1, r.2)

/-- `jalaliToGregorian` from `src/utils/persian.ts`.  An input of `none`
models `NaN` (the source coerces with `parseInt` and throws on `isNaN`,
catching the throw and returning `null`, modelled by `none`). -/
def jalaliToGregorian (jy jm jd : Option Int) : Option (Int × Int × Int) :=
  match jy, jm, jd with
  | some jy, some jm, some jd => some (jalaliToGregorianCore jy jm jd)
  | _, _, _ => none

/-- Epoch-day number of a proleptic Gregorian calendar day (`month` 1-indexed,
normalised first the way `Date.UTC` normalises out-of-range months).  This
models the ECMAScript `MakeDay` computation at day precision. -/
def daysFromCivil (year month day : Int) : Int :=
  let y0 : Int := year + (month - 1) / 12
  let m : Int := (month - 1) % 12 + 1
  let y : Int := y0 - (if m ≤ 2 then 1 else 0)
  let era : Int := y / 400
  let yoe : Int := y - era * 400
  let mp : Int := (m + 9) % 12
  let doy : Int := (153 * mp + 2) / 5 + day - 1
  let doe : Int := yoe * 365 + yoe / 4 - yoe / 100 + doy
  era * 146097 + doe - 719468

/-- Models `Date.UTC(year, monthIndex, day)` (0-indexed `monthIndex`, day
precision) as epoch milliseconds. -/
def dateUTC (year monthIndex day : Int) : Int :=
  daysFromCivil year (monthIndex + 1) day * MS_PER_DAY

/-- Models `Date.prototype.getUTCDay` on an epoch-millisecond instant:
`0 = Sunday .. 6 = Saturday`; the epoch day 1970-01-01 was a Thursday (4). -/
def getUTCDay (ms : Int) : Int := (ms / MS_PER_DAY + 4) % 7

/-- Models `setUTCHours(0, 0, 0, 0)`: truncates an instant to the UTC
midnight that starts its calendar day. -/
def floorToUTCMidnight (ms : Int) : Int := ms - ms % MS_PER_DAY

namespace PersianUtils

/-- `getStartOfWeekPersian` from `src/utils/persian.ts`: steps back to the
Saturday (`daysToSubtract = (getUTCDay(date) + 1) % 7`) via `setUTCDate`
(exact `MS_PER_DAY` arithmetic in UTC) and then truncates to UTC midnight. -/
def getStartOfWeekPersian (date : Int) : Int :=
  let dayOfWeekUTC := getUTCDay date
  let daysToSubtract := jsMod (dayOfWeekUTC + 1) 7
  floorToUTCMidnight (date - daysToSubtract * MS_PER_DAY)

end PersianUtils

namespace CommandHandler

/-- The private `getStartOfWeekPersian` of `CommandHandler` in
`src/handlers/commands.ts` (verbatim duplicate of the util). -/
def getStartOfWeekPersian (date : Int) : Int :=
  let dayOfWeekUTC := getUTCDay date
  let daysToSubtract := jsMod (dayOfWeekUTC + 1) 7
  floorToUTCMidnight (date - daysToSubtract * MS_PER_DAY)

/-- The private `calculateWeekStatusForDate` of `CommandHandler` in
`src/handlers/commands.ts`: converts the Jalali reference anchor to
Gregorian, builds `Date.UTC(gy, gm - 1, gd)`, aligns both dates to their
Saturday week starts and flips the reference parity by the floor of the
elapsed weeks.  The `null` guard on the conversion is kept (the `catch`
branch of the source returns the error sentinel). -/
def calculateWeekStatusForDate (targetDate : Int) : String :=
  match jalaliToGregorian (some REFERENCE_PERSIAN_YEAR) (some REFERENCE_PERSIAN_MONTH)
      (some REFERENCE_PERSIAN_DAY) with
  | none => "نامشخص (خطا)"
  | some (gy, gm, gd) =>
    let referenceDateGregorian := floorToUTCMidnight (dateUTC gy (gm - 1) gd)
    let currentWeekStartDate := getStartOfWeekPersian targetDate
    let referenceWeekStartDate := getStartOfWeekPersian referenceDateGregorian
    let timeDifference := currentWeekStartDate - referenceWeekStartDate
    let daysDifference := jsFloorDiv timeDifference MS_PER_DAY
    let weeksPassed := jsFloorDiv daysDifference 7
    if jsMod weeksPassed 2 = 0 then REFERENCE_STATUS
    else if REFERENCE_STATUS = "زوج" then "فرد" else "زوج"

end CommandHandler

namespace MessageHandler

/-- `new Date('2024-02-10')` from `src/handlers/messages.ts` — a date-only
ISO string parses as UTC midnight. -/
def refDate : Int := dateUTC 2024 1 10

/-- The private simplified `calculateWeekStatusForDate` of `MessageHandler`
in `src/handlers/messages.ts`: no week-start normalisation, hard-coded
reference `2024-02-10`. -/
def calculateWeekStatusForDate (targetDate : Int) : String :=
  let timeDiff := targetDate - refDate
  let daysDiff := jsFloorDiv timeDiff MS_PER_DAY
  let weeksPassed := jsFloorDiv daysDiff 7
  if jsMod weeksPassed 2 = 0 then "فرد" else "زوج"

end MessageHandler

/-- A parsed Jalali date (`PersianDate` of `src/types`). -/
structure PersianDate where
  year : Int
  month : Int
  day : Int
deriving DecidableEq

/-- The `digitMap` replacement of `parsePersianDate`: Persian (U+06F0–U+06F9)
and Arabic-Indic (U+0660–U+0669) digits become ASCII digits; every other
character is untouched. -/
def persianDigitToAscii (c : Char) : Char :=
  match c with
  | '۰' => '0' | '۱' => '1' | '۲' => '2' | '۳' => '3' | '۴' => '4'
  | '۵' => '5' | '۶' => '6' | '۷' => '7' | '۸' => '8' | '۹' => '9'
  | '٠' => '0' | '١' => '1' | '٢' => '2' | '٣' => '3' | '٤' => '4'
  | '٥' => '5' | '٦' => '6' | '٧' => '7' | '٨' => '8' | '٩' => '9'
  | c => c

/-- The `[^\d\/\-\.]` strip of `parsePersianDate`: keep ASCII digits and the
three separators. -/
def isKeptChar (c : Char) : Bool :=
  c.isDigit || c = '/' || c = '-' || c = '.'

/-- JavaScript `String.prototype.trim` on a character list. -/
def trimChars (cs : List Char) : List Char :=
  ((cs.dropWhile Char.isWhitespace).reverse.dropWhile Char.isWhitespace).reverse

/-- JavaScript `String.prototype.split` with a single-character separator:
`"a//b".split('/') = ["a", "", "b"]` and `"".split('/') = [""]`. -/
def splitOnChar (sep : Char) : List Char → List (List Char)
  | [] => [[]]
  | c :: rest =>
    let r := splitOnChar sep rest
    if c = sep then [] :: r
    else
      match r with
      | [] => [[c]]
      | g :: gs => (c :: g) :: gs

/-- JavaScript `parseInt(s, 10)`: skip whitespace, optional sign, then the
longest leading run of decimal digits; `none` models `NaN`. -/
def jsParseInt (cs : List Char) : Option Int :=
  let cs1 := cs.dropWhile Char.isWhitespace
  let sign : Int := if cs1.head? = some '-' then -1 else 1
  let cs2 := if cs1.head? = some '-' ∨ cs1.head? = some '+' then cs1.tail else cs1
  let ds := cs2.takeWhile Char.isDigit
  if ds = [] then none
  else some (sign * ds.foldl (fun a c => a * 10 + ((c.toNat : Int) - 48)) 0)

/-- The separator / fixed-width dispatch of `parsePersianDate`: slash, dash
and dot splits in that order, then the 8-digit `YYYYMMDD` and 6-digit
`YYMMDD` (prefixed with `"14"`) fallbacks. -/
def splitIntoParts (cs : List Char) : Option (List (List Char)) :=
  if cs.any (· = '/') then some (splitOnChar '/' cs)
  else if cs.any (· = '-') then some (splitOnChar '-' cs)
  else if cs.any (· = '.') then some (splitOnChar '.' cs)
  else if cs.length = 8 ∧ cs.all Char.isDigit then
    some [cs.take 4, (cs.drop 4).take 2, (cs.drop 6).take 2]
  else if cs.length = 6 ∧ cs.all Char.isDigit then
    some [['1', '4'] ++ cs.take 2, (cs.drop 2).take 2, (cs.drop 4).take 2]
  else none

/-- The field-order heuristics of `parsePersianDate`: `YYYY/MM/DD`,
`DD/MM/YYYY`, `YYYY/DD/MM`, then `YY/MM/DD` read as `14YY`. -/
def chooseFields (p1 p2 p3 : Int) : Option (Int × Int × Int) :=
  if 1300 ≤ p1 ∧ p1 ≤ 1500 ∧ 1 ≤ p2 ∧ p2 ≤ 12 ∧ 1 ≤ p3 ∧ p3 ≤ 31 then
    some (p1, p2, p3)
  else if 1300 ≤ p3 ∧ p3 ≤ 1500 ∧ 1 ≤ p2 ∧ p2 ≤ 12 ∧ 1 ≤ p1 ∧ p1 ≤ 31 then
    some (p3, p2, p1)
  else if 1300 ≤ p1 ∧ p1 ≤ 1500 ∧ 1 ≤ p3 ∧ p3 ≤ 12 ∧ 1 ≤ p2 ∧ p2 ≤ 31 then
    some (p1, p3, p2)
  else if 0 ≤ p1 ∧ p1 ≤ 99 ∧ 1 ≤ p2 ∧ p2 ≤ 12 ∧ 1 ≤ p3 ∧ p3 ≤ 31 then
    some (1400 + p1, p2, p3)
  else none

/-- The final guard of `parsePersianDate`:
`if (!isValidPersianDate(year, month, day)) return null; return {year, month, day}`. -/
def validateCandidate (year month day : Int) : Option PersianDate :=
  if isValidPersianDate year month day then some ⟨year, month, day⟩ else none

/-- The tail of `parsePersianDate` after the split: the
`parts.length !== 3` check, `parseInt` with the `isNaN` guard, the
field-order heuristics, and the strict validation guard. -/
def parseThreeParts (parts : List (List Char)) : Option PersianDate :=
  match parts with
  | [s1, s2, s3] =>
    match jsParseInt s1, jsParseInt s2, jsParseInt s3 with
    | some p1, some p2, some p3 =>
      match chooseFields p1 p2 p3 with
      | some (y, m, d) => validateCandidate y m d
      | none => none
    | _, _, _ => none
  | _ => none

/-- `parsePersianDate` from `src/utils/persian.ts`: falsy-string guard, trim,
digit normalisation, separator strip, split dispatch, then
`parseThreeParts`. -/
def parsePersianDate (dateStr : String) : Option PersianDate :=
  if dateStr = "" then none
  else
    match splitIntoParts
        (List.filter isKeptChar (List.map persianDigitToAscii (trimChars dateStr.data))) with
    | some parts => parseThreeParts parts
    | none => none

/-! ### Helper lemmas -/

theorem jsFloorDiv_eq_ediv (a b : Int) (hb : 0 ≤ b) : jsFloorDiv a b = a / b :=
  Int.fdiv_eq_ediv a hb

theorem jsMod_eq_emod (a b : Int) (ha : 0 ≤ a) (hb : 0 ≤ b) : jsMod a b = a % b :=
  Int.tmod_eq_emod ha hb

theorem jsMod_two_eq_zero_iff (a : Int) : jsMod a 2 = 0 ↔ a % 2 = 0 := by
  unfold jsMod
  rw [← Int.dvd_iff_tmod_eq_zero]
  omega

/-- Closed form of the util `getStartOfWeekPersian` in pure floor-division
arithmetic. -/
theorem PersianUtils.utilStartOfWeek_eq (t : Int) :
    PersianUtils.getStartOfWeekPersian t =
      (t / MS_PER_DAY - ((t / MS_PER_DAY + 4) % 7 + 1) % 7) * MS_PER_DAY := by
  unfold PersianUtils.getStartOfWeekPersian getUTCDay floorToUTCMidnight
  dsimp only
  rw [jsMod_eq_emod _ _ (by have := Int.emod_nonneg (t / MS_PER_DAY + 4) (b := 7) (by norm_num); omega) (by norm_num)]
  unfold MS_PER_DAY
  omega

/-- Closed form of the `CommandHandler` copy of `getStartOfWeekPersian`. -/
theorem CommandHandler.commandStartOfWeek_eq (t : Int) :
    CommandHandler.getStartOfWeekPersian t =
      (t / MS_PER_DAY - ((t / MS_PER_DAY + 4) % 7 + 1) % 7) * MS_PER_DAY := by
  unfold CommandHandler.getStartOfWeekPersian getUTCDay floorToUTCMidnight
  dsimp only
  rw [jsMod_eq_emod _ _ (by have := Int.emod_nonneg (t / MS_PER_DAY + 4) (b := 7) (by norm_num); omega) (by norm_num)]
  unfold MS_PER_DAY
  omega

theorem jsFloorDiv_ms (a : Int) : jsFloorDiv a MS_PER_DAY = a / MS_PER_DAY :=
  jsFloorDiv_eq_ediv a _ (by norm_num [MS_PER_DAY])

theorem jsFloorDiv_seven (a : Int) : jsFloorDiv a 7 = a / 7 :=
  jsFloorDiv_eq_ediv a _ (by norm_num)

/-- Closed form of `CommandHandler.calculateWeekStatusForDate`: the Jalali
anchor 1403/11/20 converts to `[2025, 2, 8]`, whose `Date.UTC` instant
`1738972800000` (2025-02-08T00:00:00Z) is already a Saturday midnight and is
therefore its own week start. -/
theorem CommandHandler.commandWeekStatus_eq (t : Int) :
    CommandHandler.calculateWeekStatusForDate t =
      if jsMod (jsFloorDiv (jsFloorDiv
            (CommandHandler.getStartOfWeekPersian t - 1738972800000) MS_PER_DAY) 7) 2 = 0
      then "فرد" else "زوج" := by
  have h1 : jalaliToGregorian (some REFERENCE_PERSIAN_YEAR) (some REFERENCE_PERSIAN_MONTH)
      (some REFERENCE_PERSIAN_DAY) = some (2025, 2, 8) := by decide
  have h2 : CommandHandler.getStartOfWeekPersian (floorToUTCMidnight (dateUTC 2025 (2 - 1) 8)) =
      1738972800000 := by decide
  have h3 : ("فرد" : String) ≠ "زوج" := by decide
  unfold CommandHandler.calculateWeekStatusForDate
  rw [h1]
  dsimp only
  rw [h2]
  simp only [REFERENCE_STATUS, h3, if_false]

/-- Closed form of `MessageHandler.calculateWeekStatusForDate`: the reference
`2024-02-10` is the instant `1707523200000`, also a Saturday midnight. -/
theorem MessageHandler.messageWeekStatus_eq (t : Int) :
    MessageHandler.calculateWeekStatusForDate t =
      if jsMod (jsFloorDiv (jsFloorDiv (t - 1707523200000) MS_PER_DAY) 7) 2 = 0
      then "فرد" else "زوج" := by
  have h1 : MessageHandler.refDate = 1707523200000 := by decide
  unfold MessageHandler.calculateWeekStatusForDate
  rw [h1]

/-- The month counter of the month-table walk never decreases. -/
theorem monthLoop_fst_nonneg (l : List Int) (gm gd : Int) (h : 0 ≤ gm) :
    0 ≤ (monthLoop l gm gd).1 := by
  induction l generalizing gm gd with
  | nil => simpa [monthLoop]
  | cons a rest ih =>
    rw [monthLoop]
    split
    · exact ih (gm + 1) (gd - a) (by omega)
    · simpa

/-- If the remaining day count does not exceed the sum of the table, the walk
stops before consuming the last entry. -/
theorem monthLoop_fst_le_of_sum (l : List Int) (gm gd : Int) (hne : l ≠ []) (h : gd ≤ l.sum) :
    (monthLoop l gm gd).1 ≤ gm + l.length - 1 := by
  induction l generalizing gm gd with
  | nil => exact absurd rfl hne
  | cons a rest ih =>
    rw [monthLoop]
    split
    · rename_i hga
      cases rest with
      | nil =>
        exfalso
        simp only [List.sum_cons, List.sum_nil] at h
        omega
      | cons b rs =>
        have h2 := ih (gm + 1) (gd - a) (by simp) (by simp only [List.sum_cons] at h ⊢; omega)
        simp only [List.length_cons] at h2 ⊢
        omega
    · simp only [List.length_cons]
      omega

/-- The month-table walk starting from `gm = 0` on a day-of-year at most 365
ends with a month index between 0 and 12. -/
theorem monthLoop_month_bounds (feb gd : Int) (hf : feb = 28 ∨ feb = 29) (hgd : gd ≤ 365) :
    0 ≤ (monthLoop [0, 31, feb, 31, 30, 31, 30, 31, 31, 30, 31, 30, 31] 0 gd).1 ∧
    (monthLoop [0, 31, feb, 31, 30, 31, 30, 31, 31, 30, 31, 30, 31] 0 gd).1 ≤ 12 := by
  constructor
  · exact monthLoop_fst_nonneg _ _ _ le_rfl
  · have h := monthLoop_fst_le_of_sum [0, 31, feb, 31, 30, 31, 30, 31, 31, 30, 31, 30, 31] 0 gd
      (by simp) (by simp only [List.sum_cons, List.sum_nil]; omega)
    simpa using h

/-- The `gd = days + 1` computed before the month walk is a day-of-year at
most 365, because `days` is a truncating remainder modulo 365. -/
theorem jsMod_day_of_year_le (x : Int) : jsMod x 365 + 1 ≤ 365 := by
  have h := Int.tmod_lt_of_pos x (show (0 : Int) < 365 by norm_num)
  unfold jsMod
  omega

/-- For every integer input, the month component produced by the conversion
core lies in `[0, 12]`. -/
theorem jalaliToGregorianCore_month_bounds (jy jm jd : Int) :
    0 ≤ (jalaliToGregorianCore jy jm jd).2.1 ∧ (jalaliToGregorianCore jy jm jd).2.1 ≤ 12 := by
  unfold jalaliToGregorianCore
  dsimp only
  apply monthLoop_month_bounds
  · split_ifs <;> simp
  · exact jsMod_day_of_year_le _

/-! ### Claim theorems -/

/-- C1: evaluation of `jalaliToGregorian` at the spec's fixture pairs, under
the callers' convention (`Date.UTC(gy, gm - 1, gd)`, i.e. the returned month
is 1-indexed).  The second fixture holds: 1400/06/31 ↦ 22 September 2021.
The first does not: 1403/01/01 yields `[2024, 3, 19]`, i.e. 19 March 2024,
one day before the correct 20 March 2024 — the source drops the
`if (days > 365)` guard of the standard algorithm around
`days = (days - 1) % 365`, an off-by-one for dates falling in the first year
of each four-year cycle. -/
theorem jalaliToGregorian_fixture_evaluation :
    jalaliToGregorian (some 1403) (some 1) (some 1) = some (2024, 3, 19) ∧
    jalaliToGregorian (some 1400) (some 6) (some 31) = some (2021, 9, 22) := by
  decide

/-- C2 counterexample: the month component returned by `jalaliToGregorian` is
not 0-indexed.  By the spec's own fixture, the Gregorian equivalent of the
valid Jalali date 1400/06/31 is 22 September 2021; a 0-indexed month
component for it would be 8, but the function returns 9 (see
`jalaliToGregorian_month_range`), i.e. the month is 1-indexed. -/
theorem jalaliToGregorian_month_not_zero_indexed :
    jalaliToGregorian (some 1400) (some 6) (some 31) ≠ some (2021, 8, 22) := by
  decide

/-- C2 (amended): for every valid Jalali input the month component `gm` of
the returned triple lies in the range `[0, 12]`, but it is 1-indexed
(September ↦ 9), not 0-indexed; the value `gm = 0` is reachable only as a
degenerate product of the year-boundary off-by-one bug, e.g.
1402/10/11 (= 1 January 2024) ↦ `[2023, 0, 0]`. -/
theorem jalaliToGregorian_month_range :
    (∀ jy jm jd : Int, isValidPersianDate jy jm jd = true →
      ∃ gy gm gd : Int,
        jalaliToGregorian (some jy) (some jm) (some jd) = some (gy, gm, gd) ∧
        0 ≤ gm ∧ gm ≤ 12) ∧
    jalaliToGregorian (some 1400) (some 6) (some 31) = some (2021, 9, 22) ∧
    jalaliToGregorian (some 1402) (some 10) (some 11) = some (2023, 0, 0) := by
  refine ⟨?_, by decide, by decide⟩
  intro jy jm jd _h
  exact ⟨(jalaliToGregorianCore jy jm jd).1, (jalaliToGregorianCore jy jm jd).2.1,
    (jalaliToGregorianCore jy jm jd).2.2, rfl,
    (jalaliToGregorianCore_month_bounds jy jm jd).1,
    (jalaliToGregorianCore_month_bounds jy jm jd).2⟩

/-- C2 witness: the universally quantified part of
`jalaliToGregorian_month_range` applied at the concrete valid input
1403/01/01. -/
theorem jalaliToGregorian_month_range_witness :
    ∃ gy gm gd : Int,
      jalaliToGregorian (some 1403) (some 1) (some 1) = some (gy, gm, gd) ∧
      0 ≤ gm ∧ gm ≤ 12 :=
  jalaliToGregorian_month_range.1 1403 1 1 (by decide)

/-- C3 counterexample: `jalaliToGregorian(1300, 13, 1)` does not return
`null`.  The function performs no range validation at all: for the
out-of-range month 13 it happily returns the triple `[1922, 3, 22]`. -/
theorem jalaliToGregorian_invalid_month_not_null :
    jalaliToGregorian (some 1300) (some 13) (some 1) ≠ none ∧
    jalaliToGregorian (some 1300) (some 13) (some 1) = some (1922, 3, 22) := by
  decide

/-- C3 (amended): `jalaliToGregorian` returns `null` exactly for `NaN`
(non-numeric) inputs — range violations such as month 13 are not caught and
yield a (nonsensical) triple such as `[1922, 3, 22]` for 1300/13/01 — and
for every input it returns a value rather than throwing (the function is
total; the internal throw on `isNaN` is caught and mapped to `null`). -/
theorem jalaliToGregorian_nan_null_total :
    (∀ a b c : Option Int, (a = none ∨ b = none ∨ c = none) →
      jalaliToGregorian a b c = none) ∧
    jalaliToGregorian (some 1300) (some 13) (some 1) = some (1922, 3, 22) := by
  refine ⟨?_, by decide⟩
  intro a b c h
  match a, b, c with
  | none, _, _ => rfl
  | some _, none, _ => rfl
  | some _, some _, none => rfl
  | some _, some _, some _ =>
    rcases h with h | h | h <;> exact absurd h (by simp)

/-- C3 witness: `jalaliToGregorian_nan_null_total` applied at the concrete
input `(NaN, 13, 1)`. -/
theorem jalaliToGregorian_nan_null_total_witness :
    jalaliToGregorian none (some 13) (some 1) = none :=
  jalaliToGregorian_nan_null_total.1 none (some 13) (some 1) (Or.inl rfl)

/-- C4: day-count validation of `isValidPersianDate` for years in
`[1300, 1500]`: months 1–6 admit day 31 but not 32; months 7–11 admit day 30
but not 31; month 12 admits day 30 exactly for `year % 33` in
`{1, 5, 9, 13, 17, 22, 26, 30}`, always admits day 29, and rejects every day
above the applicable bound. -/
theorem isValidPersianDate_day_bounds (y : Int) (hy1 : 1300 ≤ y) (hy2 : y ≤ 1500) :
    (∀ m : Int, 1 ≤ m → m ≤ 6 →
      isValidPersianDate y m 31 = true ∧ isValidPersianDate y m 32 = false) ∧
    (∀ m : Int, 7 ≤ m → m ≤ 11 →
      isValidPersianDate y m 30 = true ∧ isValidPersianDate y m 31 = false) ∧
    (isValidPersianDate y 12 30 = true ↔
      jsMod y 33 ∈ ([1, 5, 9, 13, 17, 22, 26, 30] : List Int)) ∧
    isValidPersianDate y 12 29 = true ∧
    (∀ m d : Int, 1 ≤ m → m ≤ 6 → 31 < d → isValidPersianDate y m d = false) ∧
    (∀ m d : Int, 7 ≤ m → m ≤ 11 → 30 < d → isValidPersianDate y m d = false) ∧
    (∀ d : Int,
      (if jsMod y 33 ∈ ([1, 5, 9, 13, 17, 22, 26, 30] : List Int) then 30 else 29) < d →
      isValidPersianDate y 12 d = false) := by
  have hm : jsMod y 33 = y % 33 := jsMod_eq_emod y 33 (by omega) (by norm_num)
  refine ⟨fun m h1 h2 => ?_, fun m h1 h2 => ?_, ?_, ?_, fun m d h1 h2 h3 => ?_,
    fun m d h1 h2 h3 => ?_, fun d hd => ?_⟩
  · constructor <;>
    · unfold isValidPersianDate
      rw [hm]
      simp only [List.mem_cons, List.not_mem_nil, or_false]
      split_ifs <;> first | rfl | (exfalso; omega)
  · constructor <;>
    · unfold isValidPersianDate
      rw [hm]
      simp only [List.mem_cons, List.not_mem_nil, or_false]
      split_ifs <;> first | rfl | (exfalso; omega)
  · unfold isValidPersianDate
    rw [hm]
    simp only [List.mem_cons, List.not_mem_nil, or_false]
    split_ifs <;> simp_all <;> omega
  · unfold isValidPersianDate
    rw [hm]
    simp only [List.mem_cons, List.not_mem_nil, or_false]
    split_ifs <;> first | rfl | (exfalso; omega)
  · unfold isValidPersianDate
    rw [hm]
    simp only [List.mem_cons, List.not_mem_nil, or_false]
    split_ifs <;> first | rfl | (exfalso; omega)
  · unfold isValidPersianDate
    rw [hm]
    simp only [List.mem_cons, List.not_mem_nil, or_false]
    split_ifs <;> first | rfl | (exfalso; omega)
  · unfold isValidPersianDate
    rw [hm] at hd ⊢
    simp only [List.mem_cons, List.not_mem_nil, or_false] at hd ⊢
    split_ifs at hd ⊢ <;> first | rfl | (exfalso; omega)

/-- C4 witness: `isValidPersianDate_day_bounds` applied at year 1403 with the
first two component families instantiated at concrete months. -/
theorem isValidPersianDate_day_bounds_witness :
    (isValidPersianDate 1403 1 31 = true ∧ isValidPersianDate 1403 1 32 = false) ∧
    (isValidPersianDate 1403 7 30 = true ∧ isValidPersianDate 1403 7 31 = false) ∧
    isValidPersianDate 1403 12 29 = true :=
  ⟨(isValidPersianDate_day_bounds 1403 (by norm_num) (by norm_num)).1 1
      (by norm_num) (by norm_num),
   (isValidPersianDate_day_bounds 1403 (by norm_num) (by norm_num)).2.1 7
      (by norm_num) (by norm_num),
   (isValidPersianDate_day_bounds 1403 (by norm_num) (by norm_num)).2.2.2.1⟩

/-- C5: the command-handler week parity is periodic with period two weeks:
shifting a UTC-midnight calendar day by 14 days preserves the label and
shifting by 7 days flips it. -/
theorem commandWeekStatus_two_week_period (d : Int) (hd : d % MS_PER_DAY = 0) :
    CommandHandler.calculateWeekStatusForDate (d + 14 * MS_PER_DAY) =
      CommandHandler.calculateWeekStatusForDate d ∧
    CommandHandler.calculateWeekStatusForDate (d + 7 * MS_PER_DAY) ≠
      CommandHandler.calculateWeekStatusForDate d := by
  have h7 : jsFloorDiv (jsFloorDiv (CommandHandler.getStartOfWeekPersian (d + 7 * MS_PER_DAY)
        - 1738972800000) MS_PER_DAY) 7 =
      jsFloorDiv (jsFloorDiv (CommandHandler.getStartOfWeekPersian d
        - 1738972800000) MS_PER_DAY) 7 + 1 := by
    rw [CommandHandler.commandStartOfWeek_eq, CommandHandler.commandStartOfWeek_eq]
    simp only [jsFloorDiv_ms, jsFloorDiv_seven]
    unfold MS_PER_DAY
    omega
  have h14 : jsFloorDiv (jsFloorDiv (CommandHandler.getStartOfWeekPersian (d + 14 * MS_PER_DAY)
        - 1738972800000) MS_PER_DAY) 7 =
      jsFloorDiv (jsFloorDiv (CommandHandler.getStartOfWeekPersian d
        - 1738972800000) MS_PER_DAY) 7 + 2 := by
    rw [CommandHandler.commandStartOfWeek_eq, CommandHandler.commandStartOfWeek_eq]
    simp only [jsFloorDiv_ms, jsFloorDiv_seven]
    unfold MS_PER_DAY
    omega
  simp only [CommandHandler.commandWeekStatus_eq]
  rw [h7, h14]
  set W := jsFloorDiv (jsFloorDiv (CommandHandler.getStartOfWeekPersian d
    - 1738972800000) MS_PER_DAY) 7 with hW
  have hif : (jsMod (W + 1) 2 = 0) ↔ ¬ (jsMod W 2 = 0) := by
    rw [jsMod_two_eq_zero_iff, jsMod_two_eq_zero_iff]
    omega
  constructor
  · exact if_congr (by rw [jsMod_two_eq_zero_iff, jsMod_two_eq_zero_iff]; omega) rfl rfl
  · by_cases hp : jsMod W 2 = 0
    · rw [if_neg (fun hc => (hif.mp hc) hp), if_pos hp]
      decide
    · rw [if_pos (hif.mpr hp), if_neg hp]
      decide

/-- C5 witness: `commandWeekStatus_two_week_period` at the UTC-midnight day
`0` (1970-01-01T00:00:00Z). -/
theorem commandWeekStatus_two_week_period_witness :
    CommandHandler.calculateWeekStatusForDate (0 + 14 * MS_PER_DAY) =
      CommandHandler.calculateWeekStatusForDate 0 ∧
    CommandHandler.calculateWeekStatusForDate (0 + 7 * MS_PER_DAY) ≠
      CommandHandler.calculateWeekStatusForDate 0 :=
  commandWeekStatus_two_week_period 0 (by decide)

/-- C6: a target date whose week start is exactly one week before the week
start of the reference anchor (`1738972800000` = 2025-02-08T00:00:00Z, the
Saturday of the week of Jalali 1403/11/20) gets the flipped parity "زوج",
not the reference parity "فرد": the weeks-passed computation uses
`Math.floor`, i.e. true floor division, for negative differences. -/
theorem commandWeekStatus_week_before_reference (d : Int)
    (h : CommandHandler.getStartOfWeekPersian d = 1738972800000 - 7 * MS_PER_DAY) :
    CommandHandler.calculateWeekStatusForDate d = "زوج" ∧ REFERENCE_STATUS = "فرد" := by
  refine ⟨?_, rfl⟩
  rw [CommandHandler.commandWeekStatus_eq, h]
  decide

/-- C6 witness: `commandWeekStatus_week_before_reference` at the concrete
instant 2025-02-01T00:00:00Z (the Saturday one week before the reference
week start, equal to its own week start). -/
theorem commandWeekStatus_week_before_reference_witness :
    CommandHandler.calculateWeekStatusForDate 1738368000000 = "زوج" ∧
    REFERENCE_STATUS = "فرد" :=
  commandWeekStatus_week_before_reference 1738368000000 (by decide)

/-- C7: `getStartOfWeekPersian` always returns a UTC-midnight instant whose
UTC weekday is Saturday (`getUTCDay = 6`), and it is idempotent. -/
theorem getStartOfWeekPersian_saturday_midnight_idempotent (d : Int) :
    PersianUtils.getStartOfWeekPersian d % MS_PER_DAY = 0 ∧
    getUTCDay (PersianUtils.getStartOfWeekPersian d) = 6 ∧
    PersianUtils.getStartOfWeekPersian (PersianUtils.getStartOfWeekPersian d) =
      PersianUtils.getStartOfWeekPersian d := by
  simp only [PersianUtils.utilStartOfWeek_eq]
  unfold getUTCDay MS_PER_DAY
  omega

/-- C9: the simplified `MessageHandler.calculateWeekStatusForDate` (raw
reference 2024-02-10, no week-start normalisation) agrees with
`CommandHandler.calculateWeekStatusForDate` (Jalali anchor 1403/11/20,
Saturday-aligned week starts) on every target instant: `2024-02-10` is
itself a Saturday UTC midnight, so flooring the raw day difference by 7
buckets exactly the Saturday-aligned weeks, and the two reference Saturdays
lie an even number (52) of weeks apart, so the two-week cycles are in
phase. -/
theorem messageWeekStatus_eq_commandWeekStatus (t : Int) :
    MessageHandler.calculateWeekStatusForDate t =
      CommandHandler.calculateWeekStatusForDate t := by
  rw [MessageHandler.messageWeekStatus_eq,
    CommandHandler.commandWeekStatus_eq]
  have h52 : jsFloorDiv (jsFloorDiv (t - 1707523200000) MS_PER_DAY) 7 =
      jsFloorDiv (jsFloorDiv (CommandHandler.getStartOfWeekPersian t
        - 1738972800000) MS_PER_DAY) 7 + 52 := by
    rw [CommandHandler.commandStartOfWeek_eq]
    simp only [jsFloorDiv_ms, jsFloorDiv_seven]
    unfold MS_PER_DAY
    omega
  rw [h52]
  exact if_congr (by rw [jsMod_two_eq_zero_iff, jsMod_two_eq_zero_iff]; omega) rfl rfl

/-- C10: the exported `getStartOfWeekPersian` of `src/utils/persian.ts` and
the private copy inside `CommandHandler` are extensionally equal (the source
duplicates the function verbatim). -/
theorem getStartOfWeekPersian_impls_agree (d : Int) :
    PersianUtils.getStartOfWeekPersian d = CommandHandler.getStartOfWeekPersian d := rfl

/-- Every date record produced by the validation guard passes the
validator. -/
theorem validateCandidate_sound (y m d : Int) (pd : PersianDate)
    (h : validateCandidate y m d = some pd) :
    isValidPersianDate pd.year pd.month pd.day = true := by
  unfold validateCandidate at h
  split at h
  · rename_i hv
    cases h
    exact hv
  · exact absurd h (by simp)

/-- Every date record produced by the post-split tail of the parser passes
the validator. -/
theorem parseThreeParts_sound (parts : List (List Char)) (pd : PersianDate)
    (h : parseThreeParts parts = some pd) :
    isValidPersianDate pd.year pd.month pd.day = true := by
  rcases parts with _ | ⟨s1, parts⟩
  · exact absurd h (by simp [parseThreeParts])
  rcases parts with _ | ⟨s2, parts⟩
  · exact absurd h (by simp [parseThreeParts])
  rcases parts with _ | ⟨s3, parts⟩
  · exact absurd h (by simp [parseThreeParts])
  rcases parts with _ | ⟨s4, parts⟩
  · simp only [parseThreeParts] at h
    rcases hp1 : jsParseInt s1 with _ | p1 <;> rw [hp1] at h
    · simp at h
    rcases hp2 : jsParseInt s2 with _ | p2 <;> rw [hp2] at h
    · simp at h
    rcases hp3 : jsParseInt s3 with _ | p3 <;> rw [hp3] at h
    · simp at h
    dsimp only at h
    rcases hcf : chooseFields p1 p2 p3 with _ | ⟨y, m, d⟩ <;> rw [hcf] at h
    · simp at h
    · dsimp only at h
      exact validateCandidate_sound y m d pd h
  · exact absurd h (by simp [parseThreeParts])

/-- C8: whenever `parsePersianDate` returns a date record at all, that record
passes the strict `isValidPersianDate` validator — every accepting path of
the parser ends in the validation guard — and the (total) function never
throws; on every other input it returns `null`. -/
theorem parsePersianDate_only_valid (s : String) (pd : PersianDate)
    (h : parsePersianDate s = some pd) :
    isValidPersianDate pd.year pd.month pd.day = true := by
  unfold parsePersianDate at h
  split at h
  · exact absurd h (by simp)
  · rcases ho : splitIntoParts
        (List.filter isKeptChar (List.map persianDigitToAscii (trimChars s.data)))
      with _ | parts <;> rw [ho] at h
    · simp at h
    · dsimp only at h
      exact parseThreeParts_sound parts pd h

/-- C8 witness: `parsePersianDate_only_valid` at the concrete input
`"1403/01/01"`, which parses to 1403/01/01. -/
theorem parsePersianDate_only_valid_witness :
    isValidPersianDate (PersianDate.mk 1403 1 1).year (PersianDate.mk 1403 1 1).month
      (PersianDate.mk 1403 1 1).day = true :=
  parsePersianDate_only_valid "1403/01/01" ⟨1403, 1, 1⟩ (by decide)

end Zojfard
